import Mathlib

/-
Verification development for the TFLite quantization-parameter propagation
engine (tensorflow/compiler/mlir/lite/quantization/quantization_driver.cc).

The definitions below are a shallow embedding of the driver's data model and
of the operations the claims are about.  Quantization parameter types are
modelled structurally (scales as rationals); graph values and operations are
modelled by numeric identifiers; the nullable C++ QuantParams is modelled as
Option QuantParams.  Work-list side effects (AddUserToList / AddOperandToList
push graph users onto the propagation work list and touch nothing else) are
outside the state-store model and are noted where they occur in the source.
-/

/-- Models mlir::quant::UniformQuantizedType: per-tensor parameters.  The
storage type field carries the integral bit width (what
getStorageTypeIntegralWidth returns); the expressed type is an opaque id. -/
structure UniformQuantizedType where
  flags : Nat
  storageType : Nat
  expressedType : Nat
  scale : ℚ
  zeroPoint : Int
  storageTypeMin : Int
  storageTypeMax : Int
deriving DecidableEq, Repr

/-- Models mlir::quant::UniformQuantizedPerAxisType: per-axis parameters. -/
structure UniformQuantizedPerAxisType where
  flags : Nat
  storageType : Nat
  expressedType : Nat
  scales : List ℚ
  zeroPoints : List Int
  quantizedDimension : Nat
  storageTypeMin : Int
  storageTypeMax : Int
deriving DecidableEq, Repr

/-- A non-null quant::QuantizedType.  The nullable C++ QuantParams value is
modelled as Option QuantParams. -/
inductive QuantParams where
  | uniform (u : UniformQuantizedType)
  | perAxis (u : UniformQuantizedPerAxisType)
deriving DecidableEq, Repr

/-- getStorageTypeIntegralWidth of a (non-null) quantized type. -/
def QuantParams.storageWidth : QuantParams → Nat
  | .uniform u => u.storageType
  | .perAxis u => u.storageType

/-- Modelled from the spec: the helper HasQuantParams is declared in the
quantization headers, which are not among the sources here; the spec states
that a state is immutable exactly when the Value's existing type already
encodes quantization parameters, and line 76 of the driver computes
immutable as the negation of HasQuantParams of the extracted element type,
so HasQuantParams holds exactly of the null QuantizedType. -/
def HasQuantParams (p : Option QuantParams) : Bool := p.isNone

/-- QuantState from quantization_driver.h: optional parameters plus the
immutable flag fixed at creation time. -/
structure QuantState where
  params : Option QuantParams
  immutable : Bool
deriving DecidableEq, Repr

/-- QuantState::IsEmpty. -/
def QuantState.IsEmpty (s : QuantState) : Bool := s.params.isNone

/-- RequantizeState::RequantizePosition. -/
inductive RequantizePosition where
  | NO_REQUANTIZE
  | ON_INPUT
  | ON_OUTPUT
deriving DecidableEq, Repr

/-- RequantizeState: a pending reconversion request.  The params field is
always assigned right after emplacement in the driver, so it is modelled as
non-optional. -/
structure RequantizeState where
  pos : RequantizePosition
  params : QuantParams
  users : List (Nat × Nat)
deriving DecidableEq, Repr

/-- One value's QuantState together with its pending RequantizeStates
(rescale_states_ is keyed by the same state index as states_). -/
structure StateAndRescales where
  state : QuantState
  rescales : List RequantizeState
deriving DecidableEq, Repr

/-- QuantizationDriver::SetResultParams (lines 171-187).  Returns the updated
state plus the changed flag.  AddUserToList only pushes the result's users
onto the work list and is not part of the state store, so it is not modelled
here. -/
def setResultParams (p : QuantParams) (s : StateAndRescales) :
    StateAndRescales × Bool :=
  if s.state.params = some p then (s, false)
  else if !s.state.IsEmpty then
    (⟨s.state, s.rescales ++ [⟨.ON_INPUT, p, []⟩]⟩, true)
  else (⟨⟨some p, s.state.immutable⟩, s.rescales⟩, true)

/-- The dedup loop inside SetOperandParams (lines 231-236): append the user
to the first pending rescale whose parameters equal the proposal; none when
no entry matches. -/
def addUserToMatchingRescale (p : QuantParams) (u : Nat × Nat) :
    List RequantizeState → Option (List RequantizeState)
  | [] => none
  | r :: rs =>
    if r.params = p then some (⟨r.pos, r.params, r.users ++ [u]⟩ :: rs)
    else (addUserToMatchingRescale p u rs).map (r :: ·)

/-- QuantizationDriver::SetOperandParams (lines 221-247).  The (op, index)
pair identifies the consuming operand position that is recorded in the users
list.  AddOperandToList only pushes the operand's defining op onto the work
list and is not modelled. -/
def setOperandParams (op index : Nat) (p : QuantParams) (ovr : Bool)
    (s : StateAndRescales) : StateAndRescales × Bool :=
  if s.state.params = some p then (s, false)
  else if !s.state.IsEmpty && !ovr then
    match addUserToMatchingRescale p (op, index) s.rescales with
    | some rs => (⟨s.state, rs⟩, true)
    | none =>
      (⟨s.state, s.rescales ++ [⟨.ON_OUTPUT, p, [(op, index)]⟩]⟩, true)
  else (⟨⟨some p, s.state.immutable⟩, s.rescales⟩, true)

/-- Association-list lookup, modelling llvm::DenseMap find. -/
def lookupA {α : Type} [DecidableEq α] (k : α) : List (α × Nat) → Option Nat
  | [] => none
  | (k', v) :: t => if k' = k then some v else lookupA k t

/-- Association-list overwrite-or-insert, modelling DenseMap subscript
assignment (and the insert-then-assign-through-iterator pattern of
InitializeStateForValue, whose net effect is a plain store). -/
def setA {α : Type} [DecidableEq α] (k : α) (v : Nat) :
    List (α × Nat) → List (α × Nat)
  | [] => [(k, v)]
  | (k', v') :: t => if k' = k then (k, v) :: t else (k', v') :: setA k v t

/-- The driver's state store during initialization: the state vector plus
the Value-to-index deduplication map and the per-position index maps
(operand_states_, result_states_, arg_states_). -/
structure InitDriver where
  states : List QuantState
  valueToState : List (Nat × Nat)
  operandStates : List ((Nat × Nat) × Nat)
  resultStates : List ((Nat × Nat) × Nat)
  argStates : List (Nat × Nat)
deriving DecidableEq, Repr

/-- The empty state store. -/
def InitDriver.empty : InitDriver := ⟨[], [], [], [], []⟩

/-- InitializeStateForValue (lines 60-84).  The typing environment ty maps a
Value id to the quantized element type of its MLIR type, i.e. ty v models
quant::QuantizedType::getQuantizedElementType(value.getType()); in the C++
the map entry is first inserted with placeholder 0 and then overwritten with
the new state index, which nets out to the single store modelled here. -/
def initializeStateForValue (ty : Nat → Option QuantParams) (op index value : Nat)
    (asResult : Bool) (d : InitDriver) : InitDriver :=
  match lookupA value d.valueToState with
  | some cached =>
    if asResult then
      { d with resultStates := setA (op, index) cached d.resultStates }
    else
      { d with operandStates := setA (op, index) cached d.operandStates }
  | none =>
    let params := ty value
    let immutable := !(HasQuantParams params)
    let n := d.states.length
    if asResult then
      { d with
        states := d.states ++ [⟨params, immutable⟩]
        valueToState := setA value n d.valueToState
        resultStates := setA (op, index) n d.resultStates }
    else
      { d with
        states := d.states ++ [⟨params, immutable⟩]
        valueToState := setA value n d.valueToState
        operandStates := setA (op, index) n d.operandStates }

/-- QuantizationDriver::InitializeArgState (lines 88-102): same dedup logic,
keyed by the block argument in arg_states_. -/
def initializeArgState (ty : Nat → Option QuantParams) (arg value : Nat)
    (d : InitDriver) : InitDriver :=
  match lookupA value d.valueToState with
  | some cached => { d with argStates := setA arg cached d.argStates }
  | none =>
    let params := ty value
    let immutable := !(HasQuantParams params)
    let n := d.states.length
    { d with
      states := d.states ++ [⟨params, immutable⟩]
      valueToState := setA value n d.valueToState
      argStates := setA arg n d.argStates }

/-- One initialization call made by SetupAllStates: an operand position, a
result position, or a block argument, each together with the Value whose
state is to be created or shared. -/
inductive InitEvent where
  | operand (op index value : Nat)
  | result (op index value : Nat)
  | arg (a value : Nat)
deriving DecidableEq, Repr

/-- The position key a state-initialization event writes to. -/
inductive PosKey where
  | opnd (op index : Nat)
  | res (op index : Nat)
  | argK (a : Nat)
deriving DecidableEq, Repr

/-- Key of an initialization event. -/
def InitEvent.key : InitEvent → PosKey
  | .operand op i _ => .opnd op i
  | .result op i _ => .res op i
  | .arg a _ => .argK a

/-- Value of an initialization event. -/
def InitEvent.value : InitEvent → Nat
  | .operand _ _ v => v
  | .result _ _ v => v
  | .arg _ v => v

/-- Look a position up in the corresponding index map. -/
def posLookup (d : InitDriver) : PosKey → Option Nat
  | .opnd op i => lookupA (op, i) d.operandStates
  | .res op i => lookupA (op, i) d.resultStates
  | .argK a => lookupA a d.argStates

/-- Dispatch one initialization event. -/
def initStep (ty : Nat → Option QuantParams) (d : InitDriver) :
    InitEvent → InitDriver
  | .operand op i v => initializeStateForValue ty op i v false d
  | .result op i v => initializeStateForValue ty op i v true d
  | .arg a v => initializeArgState ty a v d

/-- Run a sequence of initialization events (the calls SetupAllStates makes,
in program order) against a state store. -/
def setupStates (ty : Nat → Option QuantParams) (events : List InitEvent)
    (d : InitDriver) : InitDriver :=
  events.foldl (initStep ty) d

/-- A state that is not immutable and holds propagated parameters (the
states the driver collects into its mutable_states vector). -/
def isMutableReady (s : QuantState) : Bool := !s.immutable && !s.IsEmpty

/-- QuantizationDriver::GetQuantParamsForSameScaleConstraint (lines 403-461),
over the operand states and result states of the operation, in operand order
and result order.  The early return after the operand loop is folded into the
if-chain; immutable operand and result states concatenate in that order,
exactly as the single vectors in the C++ do, and front/back are the
head/getLast of those concatenations. -/
def getQuantParamsForSameScaleConstraint (os rs : List QuantState) :
    Option QuantParams :=
  let immOps := os.filter (fun s => s.immutable)
  let mutOps := os.filter isMutableReady
  if os.length = 1 ∧ immOps.length = 1 then
    immOps.head?.bind (fun s => s.params)
  else
    let immAll := immOps ++ rs.filter (fun s => s.immutable)
    let mutAll := mutOps ++ rs.filter isMutableReady
    if rs.length = 1 ∧ (rs.filter (fun s => s.immutable)).length = 1 then
      immAll.getLast?.bind (fun s => s.params)
    else if immAll ≠ [] then
      immAll.head?.bind (fun s => s.params)
    else if os.length = 1 ∧ mutOps.length = 1 then
      mutAll.head?.bind (fun s => s.params)
    else if rs.length = 1 ∧ (rs.filter isMutableReady).length = 1 then
      mutAll.getLast?.bind (fun s => s.params)
    else
      mutAll.head?.bind (fun s => s.params)

/-- The resolution order of spec section 4.4, written from the spec's words
for comparison with the implementation: (1) the single operand if immutable;
(2) the single result if immutable; (3) the first immutable state, operands
before results; (4) the single operand if mutable and nonempty; (5) the
single result likewise; (6) the first mutable nonempty state; (7) no
decision. -/
def sameScaleSpecOrder (os rs : List QuantState) : Option QuantParams :=
  if os.length = 1 ∧ (os.head?.map (fun s => s.immutable)).getD false = true then
    os.head?.bind (fun s => s.params)
  else if rs.length = 1 ∧
      (rs.head?.map (fun s => s.immutable)).getD false = true then
    rs.head?.bind (fun s => s.params)
  else if ((os ++ rs).filter (fun s => s.immutable)) ≠ [] then
    ((os ++ rs).filter (fun s => s.immutable)).head?.bind (fun s => s.params)
  else if os.length = 1 ∧ (os.head?.map isMutableReady).getD false = true then
    os.head?.bind (fun s => s.params)
  else if rs.length = 1 ∧ (rs.head?.map isMutableReady).getD false = true then
    rs.head?.bind (fun s => s.params)
  else
    ((os ++ rs).filter isMutableReady).head?.bind (fun s => s.params)

/-- One value of a DenseFPElementsAttr: whether APFloat::isFinite holds, and
the magnitude as a rational (the engine only compares magnitudes). -/
structure FloatVal where
  finite : Bool
  val : ℚ
deriving DecidableEq, Repr

/-- One use of a constant, as PreprocessConstantOps classifies it: the
consuming operation, the operand number, whether the consumer's OpQuantSpec
lists that operand number among biases_params, whether its
OpQuantScaleSpec has the same-scale requirement, whether the consumer is a
quantfork::QuantizeCastOp, and the coeff_op_quant_dim entry for the operand
number, when present. -/
structure UseInfo where
  user : Nat
  operandNum : Nat
  isBias : Bool
  sameScale : Bool
  isQuantizeCast : Bool
  coeffDim : Option Int
deriving DecidableEq, Repr

/-- The weight classification of lines 496-498: not a bias operand, the
consumer has no same-scale requirement, and the consumer is not a quantize
cast. -/
def UseInfo.weightLike (u : UseInfo) : Bool :=
  !u.isBias && !u.sameScale && !u.isQuantizeCast

/-- One arith::ConstantOp as the preprocessor sees it: whether its type is a
ShapedType with float element type, the DenseFPElementsAttr contents when
the value attribute is one, and the cached list of uses. -/
structure ConstOpInfo where
  isFloatShaped : Bool
  denseValues : Option (List FloatVal)
  uses : List UseInfo
deriving DecidableEq, Repr

/-- Effect of PreprocessConstantOps on one constant: whether the walk body
returned early, whether the constant was inserted into weights_, the
optimized_weights_ entry (DenseMap::insert keeps the first value inserted),
and per use either none (the use keeps the original constant) or some k (the
use was redirected to the k-th freshly created duplicate constant). -/
structure PreprocessResult where
  skipped : Bool
  isWeight : Bool
  optimizedDim : Option Int
  useAssignments : List (Option Nat)
deriving DecidableEq, Repr

/-- One iteration of the use loop of PreprocessConstantOps: the accumulator
carries the weights_ membership so far, the optimized_weights_ entry so far
(DenseMap::insert keeps the first inserted value), the per-use assignments
so far, and the number of duplicates created so far; total is the cached
use count the duplication test of line 513 reads. -/
def preprocessStep (total : Nat)
    (acc : Bool × Option Int × List (Option Nat) × Nat) (u : UseInfo) :
    Bool × Option Int × List (Option Nat) × Nat :=
  if u.weightLike then
    (true, (match acc.2.1 with | some d => some d | none => u.coeffDim),
     acc.2.2.1 ++ [none], acc.2.2.2)
  else if total > 1 then
    (acc.1, acc.2.1, acc.2.2.1 ++ [some acc.2.2.2], acc.2.2.2 + 1)
  else (acc.1, acc.2.1, acc.2.2.1 ++ [none], acc.2.2.2)

/-- The body of the PreprocessConstantOps walk for one constant
(lines 463-521).  Non-float-shaped constants are skipped; a constant whose
dense attribute's element 0 is non-finite is skipped (only element 0 is
inspected, line 472); then every cached use is classified: weight-like uses
record the constant as a weight (and its per-channel axis on first sight),
all other uses are redirected to a fresh duplicate constant whenever the
constant has more than one use in total. -/
def preprocessConstantOp (c : ConstOpInfo) : PreprocessResult :=
  if !c.isFloatShaped then ⟨true, false, none, []⟩
  else if (match c.denseValues with
           | some (v :: _) => !v.finite
           | _ => false) then ⟨true, false, none, []⟩
  else
    let out := c.uses.foldl (preprocessStep c.uses.length) (false, none, [], 0)
    ⟨false, out.1, out.2.1, out.2.2.1⟩

/-- The duplicate-assignment pattern the loop produces, stated directly by
recursion over the uses: weight-like uses keep the original node, every
other use is redirected to the next fresh duplicate when the constant has
more than one use in total. -/
def expectedAssignments (total : Nat) : List UseInfo → Nat → List (Option Nat)
  | [], _ => []
  | u :: rest, k =>
    if u.weightLike then none :: expectedAssignments total rest k
    else if total > 1 then some k :: expectedAssignments total rest (k + 1)
    else none :: expectedAssignments total rest k

/-- The guard of line 753: content-based inference (SetConstantResultParams)
is attempted for a constant only when range inference is requested, the
constant is recorded in weights_, and it is not already quantized. -/
def weightInferenceAttempted (inferTensorRange isWeight isQuantized : Bool) :
    Bool :=
  inferTensorRange && isWeight && !isQuantized

/-- Read a state at an operand index; the driver's accessor indexes
states_ via operand_states_ and never misses, so out-of-range reads use an
inert default. -/
def getStateD (l : List StateAndRescales) (i : Nat) : StateAndRescales :=
  l.getD i ⟨⟨none, false⟩, []⟩

/-- Apply SetOperandParams to the state stored at an operand index of the
visited operation.  opId is the id of the visited operation (the consumer
recorded in the requantize users list). -/
def setOperandParamsAt (opId : Nat) (l : List StateAndRescales) (i : Nat)
    (p : QuantParams) (ovr : Bool) : List StateAndRescales × Bool :=
  let r := setOperandParams opId i p ovr (getStateD l i)
  (l.set i r.1, r.2)

/-- Context of one bias-solving step, abstracting the graph facts
ShouldCheckBiasScale and SetBiasParamsWithAdjustments read: whether the
operation implements AffineQuantizedOpInterface and its affine (filter)
operand index, the DenseFPElementsAttr contents of the bias-defining
arith::ConstantOp when there is one, whether the filter operand is defined
by an arith::ConstantOp, and whether that filter constant has exactly one
use. -/
structure BiasCtx where
  isAffine : Bool
  affineOperandIndex : Nat
  biasDenseFPValues : Option (List ℚ)
  filterIsConst : Bool
  filterHasOneUse : Bool
deriving DecidableEq, Repr

/-- Extract the UniformQuantizedType behind a cast<UniformQuantizedType>;
the C++ cast asserts, so the default is only reached outside the behaviors
the source exercises. -/
def uniformD : Option QuantParams → UniformQuantizedType
  | some (.uniform u) => u
  | _ => ⟨0, 0, 0, 0, 0, 0, 0⟩

/-- Extract the UniformQuantizedPerAxisType behind a cast; same caveat. -/
def perAxisD : Option QuantParams → UniformQuantizedPerAxisType
  | some (.perAxis u) => u
  | _ => ⟨0, 0, 0, [], [], 0, 0, 0⟩

/-- getStorageTypeIntegralWidth read off a state's possibly-null params (the
C++ would fault on null; width 0 never passes the 8/32-bit checks, matching
the only way such a call could be survived). -/
def stateWidth (s : StateAndRescales) : Nat :=
  match s.state.params with
  | some p => p.storageWidth
  | none => 0

/-- QuantizationDriver::ShouldCheckBiasScale (lines 587-620), returning the
resolved (input index, filter index) pair instead of writing through
reference out-parameters. -/
def shouldCheckBiasScale (ctx : BiasCtx) (opStates : List StateAndRescales)
    (biasIndex : Nat) (inputIndices : List Nat) (params : QuantParams) :
    Option (Nat × Nat) :=
  if !ctx.isAffine then none
  else if ctx.biasDenseFPValues.isNone then none
  else if inputIndices.length ≠ 2 then none
  else
    let filterIndex := ctx.affineOperandIndex
    if !ctx.filterIsConst then none
    else
      let inputIndex? :=
        if filterIndex = inputIndices.getD 0 0 then some (inputIndices.getD 1 0)
        else if filterIndex = inputIndices.getD 1 0 then
          some (inputIndices.getD 0 0)
        else none
      match inputIndex? with
      | none => none
      | some inputIndex =>
        if stateWidth (getStateD opStates inputIndex) = 8 ∧
           stateWidth (getStateD opStates filterIndex) = 8 ∧
           params.storageWidth = 32 then
          some (inputIndex, filterIndex)
        else none

/-- kBiasMax of line 642: std::numeric_limits of int32_t max, divided by 2
with integer division. -/
def kBiasMax : ℚ := 1073741823

/-- std::abs on the rational model of a floating value. -/
def absQ (v : ℚ) : ℚ := if v < 0 then -v else v

/-- The maximum-absolute-value fold of lines 644-649 over the bias contents
(bias_half_range starts at 0 and is raised whenever a larger magnitude is
seen). -/
def maxAbsFold (vs : List ℚ) : ℚ :=
  vs.foldl (fun m v => if m < absQ v then absQ v else m) 0

/-- QuantizationDriver::DuplicateConstantOpIfNeeded (lines 573-585) as it
acts on the operand state of the target operation: with a single use the
constant is returned as-is and no state changes; otherwise the constant is
cloned, the operand is rewired to the clone, and InitializeOperandState
creates a fresh state for the clone's float-typed result (params none,
immutable false, no pending rescales). -/
def duplicateConstantOpIfNeeded (ctx : BiasCtx) (l : List StateAndRescales)
    (filterIndex : Nat) : List StateAndRescales × Bool :=
  if ctx.filterHasOneUse then (l, false)
  else (l.set filterIndex ⟨⟨none, false⟩, []⟩, true)

/-- Outcome of SetBiasParamsWithAdjustments: the updated operand states,
whether the filter constant was duplicated, and the returned changed flag. -/
structure BiasAdjustResult where
  opStates : List StateAndRescales
  filterDuplicated : Bool
  changed : Bool
deriving DecidableEq, Repr

/-- Per-axis adjustment loop of lines 684-692: for each axis, when the
scaled bias magnitude strictly exceeds kBiasMax, solve the axis's bias scale
from the magnitude and propagate it to the filter scale. -/
def perAxisAdjust (biasValues : List ℚ) (inputScale : ℚ)
    (biasScales filterScales : List ℚ) : List ℚ × List ℚ × Bool :=
  (List.range biasScales.length).foldl
    (fun (acc : List ℚ × List ℚ × Bool) i =>
      let absBias := absQ (biasValues.getD i 0)
      if absBias / (acc.1.getD i 0) > kBiasMax then
        (acc.1.set i (absBias / kBiasMax),
         acc.2.1.set i ((absBias / kBiasMax) / inputScale), true)
      else acc)
    (biasScales, filterScales, false)

/-- QuantizationDriver::SetBiasParamsWithAdjustments (lines 622-719).  opId
is the visited operation.  The per-tensor branch assigns the proposal as-is
only when bias_half_range / scale is strictly below kBiasMax; otherwise it
stores a solved bias scale with zero point 0, duplicates the filter constant
if it is shared, and overrides the filter scale with
new_bias_scale / input_scale.  The per-axis branch does the same per axis.
Scales are rationals here, standing in for the C++ doubles. -/
def setBiasParamsWithAdjustments (opId : Nat) (ctx : BiasCtx)
    (opStates : List StateAndRescales) (biasIndex : Nat)
    (inputIndices : List Nat) (params : QuantParams) : BiasAdjustResult :=
  match shouldCheckBiasScale ctx opStates biasIndex inputIndices params with
  | none =>
    let r := setOperandParamsAt opId opStates biasIndex params false
    ⟨r.1, false, r.2⟩
  | some (inputIndex, filterIndex) =>
    let inputState := getStateD opStates inputIndex
    let filterState := getStateD opStates filterIndex
    let biasValues := ctx.biasDenseFPValues.getD []
    let inputScale := (uniformD inputState.state.params).scale
    match params with
    | .uniform biasParams =>
      let biasHalfRange := maxAbsFold biasValues
      if biasHalfRange / biasParams.scale < kBiasMax then
        let r := setOperandParamsAt opId opStates biasIndex params false
        ⟨r.1, false, r.2⟩
      else
        let newBiasScale := biasHalfRange / kBiasMax
        let r1 := setOperandParamsAt opId opStates biasIndex
          (.uniform ⟨biasParams.flags, biasParams.storageType,
            biasParams.expressedType, newBiasScale, 0,
            biasParams.storageTypeMin, biasParams.storageTypeMax⟩) false
        let r2 := duplicateConstantOpIfNeeded ctx r1.1 filterIndex
        let filterParam := uniformD filterState.state.params
        let r3 := setOperandParamsAt opId r2.1 filterIndex
          (.uniform ⟨filterParam.flags, filterParam.storageType,
            filterParam.expressedType, newBiasScale / inputScale, 0,
            filterParam.storageTypeMin, filterParam.storageTypeMax⟩) true
        ⟨r3.1, r2.2, r1.2 || r3.2⟩
    | .perAxis biasParams =>
      let filterParams := perAxisD filterState.state.params
      let adj := perAxisAdjust biasValues inputScale biasParams.scales
        filterParams.scales
      if !adj.2.2 then
        let r := setOperandParamsAt opId opStates biasIndex params false
        ⟨r.1, false, r.2⟩
      else
        let r1 := setOperandParamsAt opId opStates biasIndex
          (.perAxis ⟨biasParams.flags, biasParams.storageType,
            biasParams.expressedType, adj.1, biasParams.zeroPoints,
            biasParams.quantizedDimension, biasParams.storageTypeMin,
            biasParams.storageTypeMax⟩) false
        let r2 := duplicateConstantOpIfNeeded ctx r1.1 filterIndex
        let r3 := setOperandParamsAt opId r2.1 filterIndex
          (.perAxis ⟨filterParams.flags, filterParams.storageType,
            filterParams.expressedType, adj.2.1, filterParams.zeroPoints,
            filterParams.quantizedDimension, filterParams.storageTypeMin,
            filterParams.storageTypeMax⟩) true
        ⟨r3.1, r2.2, r1.2 || r3.2⟩

/-- What RequantizeValue reads off the value it is handed: whether
castFromExpressedType succeeds on the value's (float) type, whether the
value has exactly one use, whether that sole use is a
quantfork::DequantizeCastOp, how many uses that dequantize's result has,
and whether castToExpressedType succeeds on the value's (quantized) type.
Type-level cast success is modelled by one flag per cast direction; the
insertion-point adjustments the callers perform before handing the value
over only choose which value this context describes. -/
structure RequantValueCtx where
  castFromExpressedOk : Bool
  hasOneUse : Bool
  soleUserIsDequant : Bool
  dequantNumUses : Nat
  castToExpressedOk : Bool
deriving DecidableEq, Repr

/-- The graph mutations RequantizeValue can perform: a quantize op inserted
on the producer side (ON_INPUT), a quantize op whose result is fed into the
first dequantize's operand slot (the clobber case of ON_OUTPUT), or a fresh
quantize/dequantize pair rewired to the recorded users. -/
inductive Rewrite where
  | quantizeOnInput (p : QuantParams)
  | clobberDequantInput (p : QuantParams)
  | newQuantDequantPair (p : QuantParams) (users : List (Nat × Nat))
deriving DecidableEq, Repr

/-- QuantizationDriver::RequantizeValue (lines 326-392), reported as the
list of graph mutations performed (empty means the value is left alone). -/
def requantizeValue (ctx : RequantValueCtx) (states : List RequantizeState) :
    List Rewrite :=
  match states with
  | [] => []
  | front :: _ =>
    if front.pos = .NO_REQUANTIZE then []
    else if front.pos = .ON_INPUT then
      if ctx.castFromExpressedOk then [.quantizeOnInput front.params] else []
    else
      if !ctx.hasOneUse then []
      else if !ctx.soleUserIsDequant then []
      else
        let clobber0 := decide (ctx.dequantNumUses ≤ states.length)
        (states.foldl
          (fun (acc : List Rewrite × Bool) st =>
            if !ctx.castToExpressedOk then acc
            else if !ctx.castFromExpressedOk then acc
            else if acc.2 then
              (acc.1 ++ [.clobberDequantInput st.params], false)
            else (acc.1 ++ [.newQuantDequantPair st.params st.users], acc.2))
          ([], clobber0)).1

/-- QuantizationDriver::RequantizeOpResult (lines 284-310): empty lists and
NO_REQUANTIZE fronts are ignored, and the rewrite is declined outright when
any pending state's position differs from the front's; only then is
RequantizeValue invoked (after, for ON_OUTPUT, possibly stepping past an
existing quantize-cast user, which only changes which value ctx
describes). -/
def requantizeOpResult (ctx : RequantValueCtx)
    (states : List RequantizeState) : List Rewrite :=
  match states with
  | [] => []
  | front :: _ =>
    if front.pos = .NO_REQUANTIZE then []
    else if ∃ s ∈ states, s.pos ≠ front.pos then []
    else requantizeValue ctx states

/-- QuantizationDriver::RequantizeArg (lines 312-324): adjusts the insertion
point past a sole quantize-cast user (again only choosing the value ctx
describes) and calls RequantizeValue directly, with no check that the
pending positions agree. -/
def requantizeArg (ctx : RequantValueCtx) (states : List RequantizeState) :
    List Rewrite :=
  requantizeValue ctx states

/-
Concrete fixtures used by witnesses and counterexamples.
-/

/-- An 8-bit per-tensor parameter set with scale 1. -/
def qpA : QuantParams := .uniform ⟨0, 8, 0, 1, 0, -128, 127⟩

/-- An 8-bit per-tensor parameter set with scale 2. -/
def qpB : QuantParams := .uniform ⟨0, 8, 0, 2, 0, -128, 127⟩

/-- Another 8-bit per-tensor parameter set with scale 1, standing for a
filter state. -/
def qpFil : QuantParams := .uniform ⟨0, 8, 0, 1, 0, -128, 127⟩

/-- A 32-bit per-tensor bias proposal with scale 1 and zero point 5. -/
def qpProp : QuantParams := .uniform ⟨0, 32, 0, 1, 5, -2147483648, 2147483647⟩

/-- A typing environment in which Value 100 carries quantized element type
qpB and every other Value is plain float. -/
def tyW : Nat → Option QuantParams := fun v => if v = 100 then some qpB else none

/-- C1: whenever a QuantState is created for a Value that is not yet in the
deduplication map, whether at operand or result initialization
(InitializeStateForValue) or at argument initialization (InitializeArgState),
the created state's immutable flag is true exactly when the Value's existing
type already encodes quantization parameters, i.e. when the quantized
element type ty value is non-null, and the state's params are exactly that
type's parameters. -/
theorem c1_immutable_iff_type_quantized (ty : Nat → Option QuantParams)
    (op index value arg : Nat) (asResult : Bool) (d : InitDriver)
    (h : lookupA value d.valueToState = none) :
    (initializeStateForValue ty op index value asResult d).states
      = d.states ++ [⟨ty value, (ty value).isSome⟩]
    ∧ (initializeArgState ty arg value d).states
      = d.states ++ [⟨ty value, (ty value).isSome⟩] := by
  unfold initializeStateForValue initializeArgState
  rw [h]
  refine ⟨?_, ?_⟩ <;> cases hty : ty value <;>
    simp [hty, HasQuantParams] <;> cases asResult <;> simp

/-- Witness for C1: a fresh Value with a quantized type yields an immutable
state holding its parameters, both as an operand state and as an argument
state. -/
theorem c1_witness :
    lookupA 100 InitDriver.empty.valueToState = none
    ∧ ((initializeStateForValue tyW 1 0 100 false InitDriver.empty).states
        = InitDriver.empty.states ++ [⟨tyW 100, (tyW 100).isSome⟩]
      ∧ (initializeArgState tyW 0 100 InitDriver.empty).states
        = InitDriver.empty.states ++ [⟨tyW 100, (tyW 100).isSome⟩]) :=
  ⟨by decide,
   c1_immutable_iff_type_quantized tyW 1 0 100 0 false InitDriver.empty
     (by decide)⟩

/-- Fixture for C2: a bias-solving step on an affine op whose filter operand
(index 1, single-use constant) carries an immutable 8-bit state, with a bias
constant large enough to trigger the overflow adjustment. -/
def biasCtxImm : BiasCtx := ⟨true, 1, some [2147483646], true, true⟩

/-- Fixture operand states for C2: 8-bit input at 0, immutable 8-bit filter
at 1, empty bias at 2. -/
def biasStatesImm : List StateAndRescales :=
  [⟨⟨some qpA, false⟩, []⟩, ⟨⟨some qpFil, true⟩, []⟩, ⟨⟨none, false⟩, []⟩]

/-- Counterexample for C2: the bias-adjustment path of
SetBiasParamsWithAdjustments calls SetOperandParams with override = true on
the paired filter operand, which overwrites the params of the filter's
QuantState even though that state's immutable flag is true, so an immutable
state's params can change and a nonempty params field transitions a second
time. -/
theorem c2_counterexample :
    (getStateD (setBiasParamsWithAdjustments 9 biasCtxImm biasStatesImm 2
        [0, 1] qpProp).opStates 1).state
      = ⟨some (.uniform ⟨0, 8, 0, 2, 0, -128, 127⟩), true⟩
    ∧ (getStateD biasStatesImm 1).state = ⟨some qpFil, true⟩
    ∧ qpFil ≠ QuantParams.uniform ⟨0, 8, 0, 2, 0, -128, 127⟩ := by
  have hchk : shouldCheckBiasScale biasCtxImm biasStatesImm 2 [0, 1] qpProp
      = some (0, 1) := by decide
  refine ⟨?_, by decide, by decide⟩
  unfold setBiasParamsWithAdjustments
  rw [hchk]
  simp only [qpProp, biasCtxImm, biasStatesImm, qpA, qpFil, getStateD,
    List.getD, setOperandParamsAt, duplicateConstantOpIfNeeded, uniformD,
    setOperandParams, maxAbsFold, absQ, kBiasMax, List.foldl, List.set,
    List.getElem?_cons_zero, List.getElem?_cons_succ, Option.getD_some]
  norm_num

/-- C2 as amended: without override, neither SetOperandParams nor
SetResultParams ever changes the params of a nonempty state (so params
transition at most once from empty to concrete along those paths), and the
immutable flag itself is never changed by either setter; the exception the
counterexample forces is the override = true call that
SetBiasParamsWithAdjustments makes for the paired filter operand, which
overwrites even an immutable state's params. -/
theorem c2_nonempty_params_never_overwritten (op index : Nat)
    (p : QuantParams) (s : StateAndRescales) (h : s.state.IsEmpty = false) :
    (setOperandParams op index p false s).1.state.params = s.state.params
    ∧ (setResultParams p s).1.state.params = s.state.params
    ∧ (∀ ovr, (setOperandParams op index p ovr s).1.state.immutable
        = s.state.immutable)
    ∧ (setResultParams p s).1.state.immutable = s.state.immutable := by
  unfold setOperandParams setResultParams
  by_cases hp : s.state.params = some p
  · simp [hp]
  · refine ⟨?_, ?_, ?_, ?_⟩
    · simp only [if_neg hp, h]
      cases haddu : addUserToMatchingRescale p (op, index) s.rescales <;> simp [haddu]
    · simp [if_neg hp, h]
    · intro ovr
      cases ovr <;> simp only [if_neg hp, h] <;> try rfl
      · cases haddu : addUserToMatchingRescale p (op, index) s.rescales <;> simp [haddu]
    · simp [if_neg hp, h]

/-- Witness for C2's amended theorem at a concrete nonempty state. -/
theorem c2_witness :
    (⟨⟨some qpA, false⟩, ([] : List RequantizeState)⟩ :
        StateAndRescales).state.IsEmpty = false
    ∧ ((setOperandParams 4 0 qpB false
          ⟨⟨some qpA, false⟩, []⟩).1.state.params
        = (⟨⟨some qpA, false⟩,
            ([] : List RequantizeState)⟩ : StateAndRescales).state.params
      ∧ (setResultParams qpB ⟨⟨some qpA, false⟩, []⟩).1.state.params
        = (⟨⟨some qpA, false⟩,
            ([] : List RequantizeState)⟩ : StateAndRescales).state.params
      ∧ (∀ ovr, (setOperandParams 4 0 qpB ovr
            ⟨⟨some qpA, false⟩, []⟩).1.state.immutable
          = (⟨⟨some qpA, false⟩,
              ([] : List RequantizeState)⟩ : StateAndRescales).state.immutable)
      ∧ (setResultParams qpB ⟨⟨some qpA, false⟩, []⟩).1.state.immutable
        = (⟨⟨some qpA, false⟩,
            ([] : List RequantizeState)⟩ : StateAndRescales).state.immutable) :=
  ⟨by decide,
   c2_nonempty_params_never_overwritten 4 0 qpB ⟨⟨some qpA, false⟩, []⟩
     (by decide)⟩

/-- The dedup scan of SetOperandParams misses exactly when no pending entry
carries the proposed parameters. -/
theorem addUserToMatchingRescale_eq_none (p : QuantParams) (u : Nat × Nat)
    (rs : List RequantizeState) (h : ∀ r ∈ rs, r.params ≠ p) :
    addUserToMatchingRescale p u rs = none := by
  induction rs with
  | nil => rfl
  | cons r t ih =>
    unfold addUserToMatchingRescale
    rw [if_neg (h r (by simp)), ih (fun x hx => h x (by simp [hx]))]
    rfl

/-- Converse direction: a missed dedup scan means no pending entry carries
the proposed parameters. -/
theorem forall_ne_of_addUserToMatchingRescale_eq_none (p : QuantParams)
    (u : Nat × Nat) (rs : List RequantizeState)
    (h : addUserToMatchingRescale p u rs = none) :
    ∀ r ∈ rs, r.params ≠ p := by
  induction rs with
  | nil => intro r hr; simp at hr
  | cons r t ih =>
    intro x hx
    unfold addUserToMatchingRescale at h
    by_cases hp : r.params = p
    · rw [if_pos hp] at h; exact absurd h (by simp)
    · rw [if_neg hp] at h
      rcases List.mem_cons.mp hx with hx | hx
      · rw [hx]; exact hp
      · cases ht : addUserToMatchingRescale p u t with
        | none => exact ih ht x hx
        | some t' => rw [ht] at h; simp at h

/-- The dedup scan rewrites the first matching entry and keeps everything
else, including every entry's parameters. -/
theorem addUserToMatchingRescale_split (p : QuantParams) (u : Nat × Nat)
    (a b : List RequantizeState) (r : RequantizeState)
    (ha : ∀ x ∈ a, x.params ≠ p) (hr : r.params = p) :
    addUserToMatchingRescale p u (a ++ r :: b)
      = some (a ++ ⟨r.pos, r.params, r.users ++ [u]⟩ :: b) := by
  induction a with
  | nil => simp [addUserToMatchingRescale, hr]
  | cons x t ih =>
    have hx : x.params ≠ p := ha x (by simp)
    simp only [List.cons_append]
    unfold addUserToMatchingRescale
    rw [if_neg hx, ih (fun y hy => ha y (by simp [hy]))]
    rfl

/-- A successful dedup scan preserves the list of pending target
parameters. -/
theorem addUserToMatchingRescale_params_map (p : QuantParams) (u : Nat × Nat)
    (rs rs' : List RequantizeState)
    (h : addUserToMatchingRescale p u rs = some rs') :
    rs'.map (fun x => x.params) = rs.map (fun x => x.params) := by
  induction rs generalizing rs' with
  | nil => simp [addUserToMatchingRescale] at h
  | cons r t ih =>
    unfold addUserToMatchingRescale at h
    by_cases hp : r.params = p
    · rw [if_pos hp] at h
      cases h
      simp
    · rw [if_neg hp] at h
      cases ht : addUserToMatchingRescale p u t with
      | none => rw [ht] at h; simp at h
      | some t' =>
        rw [ht] at h
        simp only [Option.map_some', Option.some.injEq] at h
        subst h
        simp [ih t' ht]

/-- Fixture for C3: an operand state holding qpA with one pending rescale
whose target parameters are already qpB. -/
def sPend : StateAndRescales :=
  ⟨⟨some qpA, false⟩, [⟨.ON_OUTPUT, qpB, [(5, 0)]⟩]⟩

/-- Counterexample for C3: proposing qpB to a state that holds qpA but
already has a pending rescale targeting qpB appends no new RequantizeState
at all (the list length is unchanged), although the claim requires exactly
one new entry to be appended on every conflicting call. -/
theorem c3_counterexample :
    sPend.state.params = some qpA ∧ qpA ≠ qpB
    ∧ (setOperandParams 7 3 qpB false sPend).2 = true
    ∧ (setOperandParams 7 3 qpB false sPend).1.rescales.length
        = sPend.rescales.length := by decide

/-- C3 as amended: on a conflicting proposal p2 over stored p1 (p1 not p2),
the stored parameters are never touched and the call returns changed;
SetResultParams always appends exactly one entry at position ON_INPUT (the
spec's after-producer) with no recorded users; SetOperandParams without
override appends exactly one entry at position ON_OUTPUT (the spec's
before-consumer) recording the (operation, operand index) consumer, except
when a pending entry already targets p2, in which case no new entry is
appended and the existing entry gains the consumer instead. -/
theorem c3_conflict_requantize (op index : Nat) (p1 p2 : QuantParams)
    (st : QuantState) (rs : List RequantizeState)
    (hstored : st.params = some p1) (hne : p1 ≠ p2) :
    setResultParams p2 ⟨st, rs⟩ = (⟨st, rs ++ [⟨.ON_INPUT, p2, []⟩]⟩, true)
    ∧ ((∀ r ∈ rs, r.params ≠ p2) →
        setOperandParams op index p2 false ⟨st, rs⟩
          = (⟨st, rs ++ [⟨.ON_OUTPUT, p2, [(op, index)]⟩]⟩, true))
    ∧ ((∃ r ∈ rs, r.params = p2) →
        (setOperandParams op index p2 false ⟨st, rs⟩).1.state = st
        ∧ (setOperandParams op index p2 false ⟨st, rs⟩).1.rescales.length
            = rs.length
        ∧ (setOperandParams op index p2 false ⟨st, rs⟩).2 = true) := by
  have hps : ¬ st.params = some p2 := by
    rw [hstored]
    simp only [Option.some.injEq]
    exact hne
  have hempty : st.IsEmpty = false := by
    unfold QuantState.IsEmpty; rw [hstored]; rfl
  refine ⟨?_, ?_, ?_⟩
  · unfold setResultParams
    rw [if_neg hps]
    simp [hempty]
  · intro hnone
    unfold setOperandParams
    rw [if_neg hps,
      addUserToMatchingRescale_eq_none p2 (op, index) rs hnone]
    simp [hempty]
  · intro hex
    cases hm : addUserToMatchingRescale p2 (op, index) rs with
    | none =>
      rcases hex with ⟨r, hr, hp⟩
      exact absurd hp
        (forall_ne_of_addUserToMatchingRescale_eq_none p2 (op, index) rs hm r hr)
    | some rs' =>
      have hlen : rs'.length = rs.length := by
        have := addUserToMatchingRescale_params_map p2 (op, index) rs rs' hm
        have h1 : (rs'.map (fun x => x.params)).length
            = (rs.map (fun x => x.params)).length := by rw [this]
        simpa using h1
      unfold setOperandParams
      rw [if_neg hps, hm]
      simp [hempty, hlen]

/-- Witness for C3's amended theorem at concrete conflicting parameters. -/
theorem c3_witness :
    (⟨some qpA, false⟩ : QuantState).params = some qpA ∧ qpA ≠ qpB
    ∧ (setResultParams qpB ⟨⟨some qpA, false⟩, []⟩
        = (⟨⟨some qpA, false⟩, [⟨.ON_INPUT, qpB, []⟩]⟩, true)
      ∧ ((∀ r ∈ ([] : List RequantizeState), r.params ≠ qpB) →
          setOperandParams 7 3 qpB false ⟨⟨some qpA, false⟩, []⟩
            = (⟨⟨some qpA, false⟩, [⟨.ON_OUTPUT, qpB, [(7, 3)]⟩]⟩, true))
      ∧ ((∃ r ∈ ([] : List RequantizeState), r.params = qpB) →
          (setOperandParams 7 3 qpB false ⟨⟨some qpA, false⟩, []⟩).1.state
            = ⟨some qpA, false⟩
          ∧ (setOperandParams 7 3 qpB false
              ⟨⟨some qpA, false⟩, []⟩).1.rescales.length
            = ([] : List RequantizeState).length
          ∧ (setOperandParams 7 3 qpB false ⟨⟨some qpA, false⟩, []⟩).2
            = true)) :=
  ⟨by decide, by decide,
   c3_conflict_requantize 7 3 qpA qpB ⟨some qpA, false⟩ [] (by decide)
     (by decide)⟩

/-- C10: when SetOperandParams proposes conflicting parameters p2 to a
nonempty state holding p1 and some pending RequantizeState already targets
p2 (the first such entry being r), no new entry is appended: the existing
entry gains the (operation, operand index) consumer, everything else is
unchanged, and the call still returns changed; moreover SetOperandParams
never creates a second entry with a target already pending, so a pending
list with pairwise distinct target parameters keeps that property. -/
theorem c10_existing_target_reused (op index : Nat) (p1 p2 : QuantParams)
    (st : QuantState) (a b : List RequantizeState) (r : RequantizeState)
    (hstored : st.params = some p1) (hne : p1 ≠ p2)
    (ha : ∀ x ∈ a, x.params ≠ p2) (hr : r.params = p2) :
    setOperandParams op index p2 false ⟨st, a ++ r :: b⟩
      = (⟨st, a ++ ⟨r.pos, r.params, r.users ++ [(op, index)]⟩ :: b⟩, true)
    ∧ ∀ (st' : QuantState) (rs : List RequantizeState) (q : QuantParams)
        (ovr : Bool),
        (rs.map (fun x => x.params)).Nodup →
        ((setOperandParams op index q ovr ⟨st', rs⟩).1.rescales.map
          (fun x => x.params)).Nodup := by
  have hps : ¬ st.params = some p2 := by
    rw [hstored]
    simp only [Option.some.injEq]
    exact hne
  have hempty : st.IsEmpty = false := by
    unfold QuantState.IsEmpty; rw [hstored]; rfl
  constructor
  · unfold setOperandParams
    rw [if_neg hps, addUserToMatchingRescale_split p2 (op, index) a b r ha hr]
    simp [hempty]
  · intro st' rs q ovr hnd
    unfold setOperandParams
    by_cases hq : st'.params = some q
    · rw [if_pos hq]; exact hnd
    · rw [if_neg hq]
      by_cases hcond : (!st'.IsEmpty && !ovr) = true
      · rw [if_pos hcond]
        cases hm : addUserToMatchingRescale q (op, index) rs with
        | none =>
          have hnot : ∀ x ∈ rs, x.params ≠ q :=
            forall_ne_of_addUserToMatchingRescale_eq_none q (op, index) rs hm
          simp only [List.map_append, List.map_cons, List.map_nil]
          rw [List.nodup_append]
          refine ⟨hnd, by simp, ?_⟩
          intro y hy
          simp only [List.mem_singleton]
          rcases List.mem_map.mp hy with ⟨x, hx, hxy⟩
          intro hyq
          exact hnot x hx (by rw [hxy, hyq])
        | some rs' =>
          have := addUserToMatchingRescale_params_map q (op, index) rs rs' hm
          simpa [this] using hnd
      · rw [if_neg hcond]; exact hnd

/-- Witness for C10 at a concrete pending list already targeting qpB. -/
theorem c10_witness :
    (⟨some qpA, false⟩ : QuantState).params = some qpA ∧ qpA ≠ qpB
    ∧ (setOperandParams 7 3 qpB false
        ⟨⟨some qpA, false⟩, [] ++ ⟨.ON_OUTPUT, qpB, [(5, 0)]⟩ :: []⟩
        = (⟨⟨some qpA, false⟩,
            [] ++ ⟨.ON_OUTPUT, qpB, [(5, 0), (7, 3)]⟩ :: []⟩, true)
      ∧ ∀ (st' : QuantState) (rs : List RequantizeState) (q : QuantParams)
          (ovr : Bool),
          (rs.map (fun x => x.params)).Nodup →
          ((setOperandParams 7 3 q ovr ⟨st', rs⟩).1.rescales.map
            (fun x => x.params)).Nodup) :=
  ⟨by decide, by decide,
   c10_existing_target_reused 7 3 qpA qpB ⟨some qpA, false⟩ []
     [] ⟨.ON_OUTPUT, qpB, [(5, 0)]⟩ (by decide) (by decide)
     (by intro x hx; simp at hx) (by decide)⟩

/-- Fixture for C9: a value context in which every cast succeeds and the
value has a single dequantize user. -/
def rvCtx : RequantValueCtx := ⟨true, true, true, 1, true⟩

/-- Fixture for C9: two pending requantize entries that disagree on
position. -/
def mixedStates : List RequantizeState :=
  [⟨.ON_INPUT, qpB, []⟩, ⟨.ON_OUTPUT, qpA, []⟩]

/-- Counterexample for C9: for a block argument whose pending entries
disagree on position, RequantizeArg still mutates the graph (it inserts the
quantize op dictated by the first entry), because only RequantizeOpResult
checks that all pending positions agree. -/
theorem c9_counterexample :
    mixedStates.map (fun s => s.pos) = [.ON_INPUT, .ON_OUTPUT]
    ∧ requantizeArg rvCtx mixedStates = [.quantizeOnInput qpB]
    ∧ requantizeArg rvCtx mixedStates ≠ [] := by decide

/-- C9 as amended: the decline-on-disagreement check exists only for
operation results: RequantizeOpResult performs no graph mutation whenever
two pending entries disagree on position, while RequantizeArg performs no
such check and rewrites according to the first entry's position (here
stated for an ON_INPUT front, which is materialized from the front entry
alone). -/
theorem c9_result_declines_arg_does_not (ctx : RequantValueCtx)
    (front : RequantizeState) (rest : List RequantizeState)
    (hdis : ∃ s ∈ front :: rest, s.pos ≠ front.pos) :
    requantizeOpResult ctx (front :: rest) = []
    ∧ (front.pos = .ON_INPUT → ctx.castFromExpressedOk = true →
        requantizeArg ctx (front :: rest)
          = [.quantizeOnInput front.params]) := by
  constructor
  · simp only [requantizeOpResult]
    by_cases hnr : front.pos = RequantizePosition.NO_REQUANTIZE
    · rw [if_pos hnr]
    · rw [if_neg hnr, if_pos hdis]
  · intro hfront hcast
    simp only [requantizeArg, requantizeValue]
    rw [hfront, hcast]
    rfl

/-- Witness for C9's amended theorem at the concrete mixed-position list. -/
theorem c9_witness :
    (∃ s ∈ (⟨.ON_INPUT, qpB, []⟩ : RequantizeState) ::
        [⟨.ON_OUTPUT, qpA, []⟩], s.pos
          ≠ (⟨.ON_INPUT, qpB, []⟩ : RequantizeState).pos)
    ∧ (requantizeOpResult rvCtx (⟨.ON_INPUT, qpB, []⟩ ::
          [⟨.ON_OUTPUT, qpA, []⟩]) = []
      ∧ ((⟨.ON_INPUT, qpB, []⟩ : RequantizeState).pos = .ON_INPUT →
          rvCtx.castFromExpressedOk = true →
          requantizeArg rvCtx (⟨.ON_INPUT, qpB, []⟩ ::
            [⟨.ON_OUTPUT, qpA, []⟩])
            = [.quantizeOnInput (⟨.ON_INPUT, qpB, []⟩ :
                RequantizeState).params])) :=
  ⟨by decide,
   c9_result_declines_arg_does_not rvCtx ⟨.ON_INPUT, qpB, []⟩
     [⟨.ON_OUTPUT, qpA, []⟩] (by decide)⟩

/-- Fixture for C7: a weight-like use of a constant. -/
def weightUse : UseInfo := ⟨1, 0, false, false, false, none⟩

/-- Fixture for C7: a float constant whose second element is non-finite but
whose first element is finite, with a single weight-like use. -/
def cNonFiniteTail : ConstOpInfo :=
  ⟨true, some [⟨true, 1⟩, ⟨false, 0⟩], [weightUse]⟩

/-- Counterexample for C7: a constant that does contain a non-finite
element (its second one) is not excluded by the preprocessor, because line
472 inspects only element 0 of the dense attribute: the constant is still
recorded as a weight, so content-based inference will run on it. -/
theorem c7_counterexample :
    (∃ v ∈ [(⟨true, 1⟩ : FloatVal), ⟨false, 0⟩], v.finite = false)
    ∧ cNonFiniteTail.denseValues = some [⟨true, 1⟩, ⟨false, 0⟩]
    ∧ preprocessConstantOp cNonFiniteTail
        = ⟨false, true, none, [none]⟩ := by decide

/-- C7 as amended: the exclusion applies exactly when the dense attribute's
first element is non-finite; such a constant is skipped entirely by the
preprocessor: it is not recorded as a weight, gets no per-channel axis
entry, and none of its uses is redirected to a duplicate; and a constant
that is not recorded as a weight never has parameters inferred from its
content, since the propagation loop guards SetConstantResultParams by
weights_ membership. -/
theorem c7_first_element_nonfinite_skipped (c : ConstOpInfo) (v : FloatVal)
    (rest : List FloatVal) (hf : c.isFloatShaped = true)
    (hd : c.denseValues = some (v :: rest)) (hv : v.finite = false) :
    preprocessConstantOp c = ⟨true, false, none, []⟩
    ∧ ∀ (infer quantized : Bool),
        weightInferenceAttempted infer false quantized = false := by
  constructor
  · unfold preprocessConstantOp
    rw [hf, hd]
    simp [hv]
  · intro infer quantized
    unfold weightInferenceAttempted
    simp

/-- Witness for C7's amended theorem on a concrete splat-NaN constant. -/
theorem c7_witness :
    (⟨true, some [⟨false, 0⟩], [weightUse]⟩ : ConstOpInfo).isFloatShaped
      = true
    ∧ (⟨true, some [⟨false, 0⟩], [weightUse]⟩ : ConstOpInfo).denseValues
      = some [⟨false, 0⟩]
    ∧ (FloatVal.mk false 0).finite = false
    ∧ (preprocessConstantOp ⟨true, some [⟨false, 0⟩], [weightUse]⟩
        = ⟨true, false, none, []⟩
      ∧ ∀ (infer quantized : Bool),
          weightInferenceAttempted infer false quantized = false) :=
  ⟨by decide, by decide, by decide,
   c7_first_element_nonfinite_skipped ⟨true, some [⟨false, 0⟩], [weightUse]⟩
     ⟨false, 0⟩ [] (by decide) (by decide) (by decide)⟩

/-- The use loop produces exactly the assignments described by
expectedAssignments, for any starting accumulator. -/
theorem foldl_preprocessStep_assignments (total : Nat) (us : List UseInfo) :
    ∀ (w : Bool) (dim : Option Int) (asg : List (Option Nat)) (k : Nat),
    (us.foldl (preprocessStep total) (w, dim, asg, k)).2.2.1
      = asg ++ expectedAssignments total us k := by
  induction us with
  | nil => intro w dim asg k; simp [expectedAssignments]
  | cons u t ih =>
    intro w dim asg k
    simp only [List.foldl_cons]
    by_cases hw : u.weightLike = true
    · simp only [preprocessStep, hw, if_pos]
      rw [ih]
      simp [expectedAssignments, hw]
    · by_cases ht : total > 1
      · simp only [preprocessStep, hw, if_neg, Bool.false_eq_true,
          not_false_iff, if_pos ht]
        rw [ih]
        simp [expectedAssignments, hw, ht]
      · simp only [preprocessStep, hw, if_neg, Bool.false_eq_true,
          not_false_iff, ht]
        rw [ih]
        simp [expectedAssignments, hw, ht]

/-- When the constant has more than one use, the duplicate indices handed
out along the expected assignments are consecutive starting at k, one per
use that is not weight-like; in particular they are pairwise distinct. -/
theorem expectedAssignments_filterMap (total : Nat) (htotal : 1 < total)
    (us : List UseInfo) : ∀ (k : Nat),
    (expectedAssignments total us k).filterMap id
      = List.range' k (us.countP (fun u => !u.weightLike)) := by
  induction us with
  | nil => intro k; simp [expectedAssignments]
  | cons u t ih =>
    intro k
    by_cases hw : u.weightLike = true
    · simp [expectedAssignments, hw, ih k, List.countP_cons]
    · simp only [expectedAssignments, hw, Bool.false_eq_true, if_false,
        if_pos htotal, List.filterMap_cons, id, List.countP_cons]
      simp [ih (k + 1), List.range'_succ, hw]

/-- Fixture for C6: a float constant with three uses: two weight-like uses
and one propagated (bias) use. -/
def cTwoWeightsOneProp : ConstOpInfo :=
  ⟨true, some [⟨true, 1⟩],
   [⟨1, 0, false, false, false, none⟩, ⟨2, 0, false, false, false, none⟩,
    ⟨3, 0, true, false, false, none⟩]⟩

/-- Counterexample for C6: this constant has more than one use, at least
one propagated use, and is also used in a weight role, yet after
preprocessing only one duplicate exists (for the propagated use): the two
weight-like uses still share the original node, so not every use gets an
independent QuantState and the constant is not duplicated per extra use
(two extra uses, one duplicate). -/
theorem c6_counterexample :
    cTwoWeightsOneProp.uses.length = 3
    ∧ (∃ u ∈ cTwoWeightsOneProp.uses, u.weightLike = true)
    ∧ (∃ u ∈ cTwoWeightsOneProp.uses, u.weightLike = false)
    ∧ (preprocessConstantOp cTwoWeightsOneProp).useAssignments
        = [none, none, some 0]
    ∧ ((preprocessConstantOp cTwoWeightsOneProp).useAssignments.filterMap
        id).length = 1 := by decide

/-- C6 as amended: for every processed float constant, the preprocessor
redirects exactly the non-weight-like (propagated) uses to fresh duplicate
constants — one new duplicate per propagated use whenever the constant has
more than one use in total, handed out as consecutive, pairwise distinct
indices — while weight-like uses keep the original node; in particular a
constant with exactly two uses, one weight-like and one propagated, ends
with two distinct nodes, each with an independent state. -/
theorem c6_duplicate_per_propagated_use (c : ConstOpInfo)
    (hf : c.isFloatShaped = true)
    (hv : (match c.denseValues with
           | some (v :: _) => !v.finite
           | _ => false) = false) :
    (preprocessConstantOp c).useAssignments
      = expectedAssignments c.uses.length c.uses 0
    ∧ (1 < c.uses.length →
        (preprocessConstantOp c).useAssignments.filterMap id
          = List.range' 0 (c.uses.countP (fun u => !u.weightLike)))
    ∧ preprocessConstantOp ⟨true, some [⟨true, 5⟩],
        [⟨1, 0, false, false, false, none⟩, ⟨2, 1, true, false, false, none⟩]⟩
      = ⟨false, true, none, [none, some 0]⟩ := by
  have hasg : (preprocessConstantOp c).useAssignments
      = expectedAssignments c.uses.length c.uses 0 := by
    unfold preprocessConstantOp
    rw [hf, hv]
    simp only [Bool.not_true, Bool.false_eq_true, if_false]
    rw [foldl_preprocessStep_assignments]
    simp
  refine ⟨hasg, ?_, by decide⟩
  intro hlen
  rw [hasg, expectedAssignments_filterMap c.uses.length hlen c.uses 0]

/-- Witness for C6's amended theorem at the three-use fixture. -/
theorem c6_witness :
    cTwoWeightsOneProp.isFloatShaped = true
    ∧ 1 < cTwoWeightsOneProp.uses.length
    ∧ ((preprocessConstantOp cTwoWeightsOneProp).useAssignments
        = expectedAssignments cTwoWeightsOneProp.uses.length
            cTwoWeightsOneProp.uses 0
      ∧ (1 < cTwoWeightsOneProp.uses.length →
          (preprocessConstantOp cTwoWeightsOneProp).useAssignments.filterMap
            id
            = List.range' 0 (cTwoWeightsOneProp.uses.countP
                (fun u => !u.weightLike)))
      ∧ preprocessConstantOp ⟨true, some [⟨true, 5⟩],
          [⟨1, 0, false, false, false, none⟩,
           ⟨2, 1, true, false, false, none⟩]⟩
        = ⟨false, true, none, [none, some 0]⟩) :=
  ⟨by decide, by decide,
   c6_duplicate_per_propagated_use cTwoWeightsOneProp (by decide)
     (by decide)⟩

/-- Storing a key makes it look up to the stored index. -/
theorem lookupA_setA_self {α : Type} [DecidableEq α] (k : α) (v : Nat)
    (l : List (α × Nat)) : lookupA k (setA k v l) = some v := by
  induction l with
  | nil => simp [setA, lookupA]
  | cons h t ih =>
    by_cases hk : h.1 = k
    · simp [setA, hk, lookupA]
    · simp [setA, hk, lookupA, ih]

/-- Storing one key leaves every other key's lookup unchanged. -/
theorem lookupA_setA_other {α : Type} [DecidableEq α] {k k' : α}
    (h : k' ≠ k) (v : Nat) (l : List (α × Nat)) :
    lookupA k' (setA k v l) = lookupA k' l := by
  have hk' : ¬ k = k' := fun hkk => h hkk.symm
  induction l with
  | nil => simp [setA, lookupA, hk']
  | cons hd t ih =>
    by_cases hk : hd.1 = k
    · simp [setA, hk, lookupA, hk']
    · simp [setA, hk, lookupA, ih]

/-- A Value already present in the deduplication map stays mapped to the
same state index across any initialization step (inserts never overwrite an
existing Value entry). -/
theorem valueToState_mono_step (ty : Nat → Option QuantParams)
    (e : InitEvent) (d : InitDriver) (v i : Nat)
    (h : lookupA v d.valueToState = some i) :
    lookupA v ((initStep ty d e).valueToState) = some i := by
  have key : ∀ (op idx val : Nat) (ar : Bool),
      lookupA v ((initializeStateForValue ty op idx val ar d).valueToState)
        = some i := by
    intro op idx val ar
    unfold initializeStateForValue
    cases hval : lookupA val d.valueToState with
    | some c => cases ar <;> simpa [hval] using h
    | none =>
      have hne : v ≠ val := by
        intro hvv
        rw [hvv, hval] at h
        exact absurd h (by simp)
      cases ar <;> simpa [hval, lookupA_setA_other hne] using h
  cases e with
  | operand op idx val => exact key op idx val false
  | result op idx val => exact key op idx val true
  | arg a val =>
    unfold initStep initializeArgState
    cases hval : lookupA val d.valueToState with
    | some c => simpa [hval] using h
    | none =>
      have hne : v ≠ val := by
        intro hvv
        rw [hvv, hval] at h
        exact absurd h (by simp)
      simpa [hval, lookupA_setA_other hne] using h

/-- Fold version of the previous monotonicity fact. -/
theorem valueToState_mono_fold (ty : Nat → Option QuantParams)
    (events : List InitEvent) : ∀ (d : InitDriver) (v i : Nat),
    lookupA v d.valueToState = some i →
    lookupA v (setupStates ty events d).valueToState = some i := by
  induction events with
  | nil => intro d v i h; exact h
  | cons e t ih =>
    intro d v i h
    exact ih (initStep ty d e) v i (valueToState_mono_step ty e d v i h)

/-- An initialization event leaves the position map entry of every other
position key unchanged. -/
theorem posLookup_other_step (ty : Nat → Option QuantParams) (e : InitEvent)
    (d : InitDriver) (k : PosKey) (hkey : e.key ≠ k) :
    posLookup (initStep ty d e) k = posLookup d k := by
  cases e with
  | operand op idx val =>
    cases hval : lookupA val d.valueToState with
    | some c =>
      cases k with
      | opnd op' idx' =>
        have hpair : ((op', idx') : Nat × Nat) ≠ (op, idx) :=
          fun hp => by cases hp; exact hkey rfl
        simp [initStep, initializeStateForValue, hval, posLookup,
          lookupA_setA_other hpair]
      | res op' idx' => simp [initStep, initializeStateForValue, hval, posLookup]
      | argK a' => simp [initStep, initializeStateForValue, hval, posLookup]
    | none =>
      cases k with
      | opnd op' idx' =>
        have hpair : ((op', idx') : Nat × Nat) ≠ (op, idx) :=
          fun hp => by cases hp; exact hkey rfl
        simp [initStep, initializeStateForValue, hval, posLookup,
          lookupA_setA_other hpair]
      | res op' idx' => simp [initStep, initializeStateForValue, hval, posLookup]
      | argK a' => simp [initStep, initializeStateForValue, hval, posLookup]
  | result op idx val =>
    cases hval : lookupA val d.valueToState with
    | some c =>
      cases k with
      | opnd op' idx' => simp [initStep, initializeStateForValue, hval, posLookup]
      | res op' idx' =>
        have hpair : ((op', idx') : Nat × Nat) ≠ (op, idx) :=
          fun hp => by cases hp; exact hkey rfl
        simp [initStep, initializeStateForValue, hval, posLookup,
          lookupA_setA_other hpair]
      | argK a' => simp [initStep, initializeStateForValue, hval, posLookup]
    | none =>
      cases k with
      | opnd op' idx' => simp [initStep, initializeStateForValue, hval, posLookup]
      | res op' idx' =>
        have hpair : ((op', idx') : Nat × Nat) ≠ (op, idx) :=
          fun hp => by cases hp; exact hkey rfl
        simp [initStep, initializeStateForValue, hval, posLookup,
          lookupA_setA_other hpair]
      | argK a' => simp [initStep, initializeStateForValue, hval, posLookup]
  | arg a val =>
    cases hval : lookupA val d.valueToState with
    | some c =>
      cases k with
      | opnd op' idx' => simp [initStep, initializeArgState, hval, posLookup]
      | res op' idx' => simp [initStep, initializeArgState, hval, posLookup]
      | argK a' =>
        have hpair : a' ≠ a := fun hp => by cases hp; exact hkey rfl
        simp [initStep, initializeArgState, hval, posLookup,
          lookupA_setA_other hpair]
    | none =>
      cases k with
      | opnd op' idx' => simp [initStep, initializeArgState, hval, posLookup]
      | res op' idx' => simp [initStep, initializeArgState, hval, posLookup]
      | argK a' =>
        have hpair : a' ≠ a := fun hp => by cases hp; exact hkey rfl
        simp [initStep, initializeArgState, hval, posLookup,
          lookupA_setA_other hpair]

/-- Fold version: events whose keys all differ from k leave k's position
entry unchanged. -/
theorem posLookup_other_fold (ty : Nat → Option QuantParams)
    (events : List InitEvent) : ∀ (d : InitDriver) (k : PosKey),
    (∀ e ∈ events, e.key ≠ k) →
    posLookup (setupStates ty events d) k = posLookup d k := by
  induction events with
  | nil => intro d k _; rfl
  | cons e t ih =>
    intro d k hk
    have h1 : posLookup (setupStates ty t (initStep ty d e)) k
        = posLookup (initStep ty d e) k :=
      ih (initStep ty d e) k (fun x hx => hk x (by simp [hx]))
    rw [setupStates, List.foldl_cons, ← setupStates, h1,
      posLookup_other_step ty e d k (hk e (by simp))]

/-- Processing one event makes its own position key point to the
deduplication entry of its Value, which is now present. -/
theorem initStep_establishes (ty : Nat → Option QuantParams) (e : InitEvent)
    (d : InitDriver) :
    posLookup (initStep ty d e) e.key
      = lookupA e.value (initStep ty d e).valueToState
    ∧ (lookupA e.value (initStep ty d e).valueToState).isSome = true := by
  cases e with
  | operand op idx val =>
    cases hval : lookupA val d.valueToState with
    | some c =>
      simp [initStep, initializeStateForValue, hval, posLookup,
        InitEvent.key, InitEvent.value, lookupA_setA_self]
    | none =>
      simp [initStep, initializeStateForValue, hval, posLookup,
        InitEvent.key, InitEvent.value, lookupA_setA_self]
  | result op idx val =>
    cases hval : lookupA val d.valueToState with
    | some c =>
      simp [initStep, initializeStateForValue, hval, posLookup,
        InitEvent.key, InitEvent.value, lookupA_setA_self]
    | none =>
      simp [initStep, initializeStateForValue, hval, posLookup,
        InitEvent.key, InitEvent.value, lookupA_setA_self]
  | arg a val =>
    cases hval : lookupA val d.valueToState with
    | some c =>
      simp [initStep, initializeArgState, hval, posLookup,
        InitEvent.key, InitEvent.value, lookupA_setA_self]
    | none =>
      simp [initStep, initializeArgState, hval, posLookup,
        InitEvent.key, InitEvent.value, lookupA_setA_self]

/-- After running a sequence of initialization events with pairwise distinct
position keys, every event's position resolves through the deduplication
map of its Value, and that entry exists. -/
theorem setupStates_pos_resolves (ty : Nat → Option QuantParams)
    (events : List InitEvent) : ∀ (d : InitDriver),
    (events.map InitEvent.key).Nodup → ∀ e ∈ events,
    posLookup (setupStates ty events d) e.key
      = lookupA e.value (setupStates ty events d).valueToState
    ∧ (lookupA e.value (setupStates ty events d).valueToState).isSome
        = true := by
  induction events with
  | nil => intro d _ e he; simp at he
  | cons e' t ih =>
    intro d hnd e he
    have hnd' : (t.map InitEvent.key).Nodup := by
      simpa using hnd.of_cons
    rcases List.mem_cons.mp he with he | he
    · subst he
      have hkeys : ∀ x ∈ t, x.key ≠ e.key := by
        intro x hx hcontra
        have : e.key ∈ t.map InitEvent.key :=
          List.mem_map.mpr ⟨x, hx, hcontra⟩
        exact (List.nodup_cons.mp hnd).1 this
      obtain ⟨h1, h2⟩ := initStep_establishes ty e d
      cases hsome : lookupA e.value (initStep ty d e).valueToState with
      | none => rw [hsome] at h2; simp at h2
      | some i =>
        rw [hsome] at h1
        have hmono : lookupA e.value
            (setupStates ty t (initStep ty d e)).valueToState = some i :=
          valueToState_mono_fold ty t (initStep ty d e) e.value i hsome
        have hpos : posLookup (setupStates ty t (initStep ty d e)) e.key
            = some i := by
          rw [posLookup_other_fold ty t (initStep ty d e) e.key hkeys, h1]
        constructor
        · rw [setupStates, List.foldl_cons, ← setupStates, hpos, hmono]
        · rw [setupStates, List.foldl_cons, ← setupStates, hmono]
          rfl
    · have := ih (initStep ty d e') hnd' e he
      rw [setupStates, List.foldl_cons, ← setupStates]
      exact this

/-- C8: for any sequence of state-initialization events with pairwise
distinct position keys, two events that reference the identical Value end
with their positions mapped to one and the same state index: the claimed
per-Value deduplication of the state store, which is what makes an
assignment through one position visible through the other (both positions
index the single shared record in the state vector). -/
theorem c8_same_value_same_state (ty : Nat → Option QuantParams)
    (events : List InitEvent) (e1 e2 : InitEvent)
    (hnd : (events.map InitEvent.key).Nodup)
    (h1 : e1 ∈ events) (h2 : e2 ∈ events) (hv : e1.value = e2.value) :
    ∃ i, posLookup (setupStates ty events InitDriver.empty) e1.key = some i
      ∧ posLookup (setupStates ty events InitDriver.empty) e2.key
        = some i := by
  obtain ⟨ha1, hb1⟩ :=
    setupStates_pos_resolves ty events InitDriver.empty hnd e1 h1
  obtain ⟨ha2, _⟩ :=
    setupStates_pos_resolves ty events InitDriver.empty hnd e2 h2
  cases hsome : lookupA e1.value
      (setupStates ty events InitDriver.empty).valueToState with
  | none => rw [hsome] at hb1; simp at hb1
  | some i =>
    refine ⟨i, ?_, ?_⟩
    · rw [ha1, hsome]
    · rw [ha2, ← hv, hsome]

/-- Witness for C8: an operand position of op 1 and a result position of op
2 both referencing Value 100 resolve to one shared state index. -/
theorem c8_witness :
    (([InitEvent.operand 1 0 100, InitEvent.result 2 0 100,
       InitEvent.operand 3 1 7, InitEvent.arg 0 100].map
        InitEvent.key).Nodup)
    ∧ ∃ i, posLookup (setupStates tyW
        [InitEvent.operand 1 0 100, InitEvent.result 2 0 100,
         InitEvent.operand 3 1 7, InitEvent.arg 0 100] InitDriver.empty)
        (InitEvent.operand 1 0 100).key = some i
      ∧ posLookup (setupStates tyW
          [InitEvent.operand 1 0 100, InitEvent.result 2 0 100,
           InitEvent.operand 3 1 7, InitEvent.arg 0 100] InitDriver.empty)
          (InitEvent.result 2 0 100).key = some i :=
  ⟨by decide,
   c8_same_value_same_state tyW
     [InitEvent.operand 1 0 100, InitEvent.result 2 0 100,
      InitEvent.operand 3 1 7, InitEvent.arg 0 100]
     (InitEvent.operand 1 0 100) (InitEvent.result 2 0 100)
     (by decide) (by decide) (by decide) (by decide)⟩

/-- C4: GetQuantParamsForSameScaleConstraint is deterministic (it is a
function of the operand and result states) and agrees, for every
combination of operand and result states, with the spec's rule order as
written in section 4.4 (single immutable operand; single immutable result;
first immutable state, operands before results; single mutable nonempty
operand; single mutable nonempty result; first mutable nonempty state; no
decision); in particular an op with one immutable operand state and two
results, one of them mutable nonempty, picks the immutable operand's
parameters. -/
theorem c4_same_scale_priority_order :
    (∀ (os rs : List QuantState),
      getQuantParamsForSameScaleConstraint os rs = sameScaleSpecOrder os rs)
    ∧ getQuantParamsForSameScaleConstraint [⟨some qpA, true⟩]
        [⟨some qpB, false⟩, ⟨none, false⟩] = some qpA := by
  constructor
  · intro os rs
    unfold getQuantParamsForSameScaleConstraint sameScaleSpecOrder
    rcases os with _ | ⟨a, _ | ⟨a2, aT⟩⟩ <;>
      rcases rs with _ | ⟨b, _ | ⟨b2, bT⟩⟩
    · simp
    · cases hb : b.immutable <;> cases hb2 : b.IsEmpty <;>
        simp [isMutableReady, hb, hb2, List.filter_cons,
          List.getLast?_append_cons]
    · simp [isMutableReady, List.filter_append, List.filter_cons]
    · cases ha : a.immutable <;> cases ha2 : a.IsEmpty <;>
        simp [isMutableReady, ha, ha2, List.filter_cons]
    · cases ha : a.immutable <;> cases ha2 : a.IsEmpty <;>
        cases hb : b.immutable <;> cases hb2 : b.IsEmpty <;>
        simp [isMutableReady, ha, ha2, hb, hb2, List.filter_cons,
          List.filter_append, List.getLast?_append_cons]
    · cases ha : a.immutable <;> cases ha2 : a.IsEmpty <;>
        simp [isMutableReady, ha, ha2, List.filter_cons, List.filter_append]
    · simp [isMutableReady, List.filter_append, List.filter_cons]
    · cases hb : b.immutable <;> cases hb2 : b.IsEmpty <;>
        simp [isMutableReady, hb, hb2, List.filter_cons, List.filter_append,
          List.getLast?_append_cons]
    · have hA : ((a :: a2 :: aT).length = 1) = False := by simp
      have hB : ((b :: b2 :: bT).length = 1) = False := by simp
      simp only [hA, hB, false_and, if_false, List.filter_append]
  · decide

/-- Reading back the slot just written. -/
theorem getStateD_set_self (l : List StateAndRescales) :
    ∀ (i : Nat) (x : StateAndRescales), i < l.length →
    getStateD (l.set i x) i = x := by
  induction l with
  | nil => intro i x h; simp at h
  | cons a t ih =>
    intro i x h
    cases i with
    | zero => rfl
    | succ n =>
      simp only [List.set_cons_succ, getStateD, List.getD_cons_succ]
      exact ih n x (by simpa using h)

/-- Writing one slot leaves every other slot unchanged. -/
theorem getStateD_set_other (l : List StateAndRescales) :
    ∀ (i j : Nat) (x : StateAndRescales), i ≠ j →
    getStateD (l.set i x) j = getStateD l j := by
  induction l with
  | nil => intro i x j h; cases i <;> rfl
  | cons a t ih =>
    intro i j x h
    cases i with
    | zero =>
      cases j with
      | zero => exact absurd rfl h
      | succ m => simp [getStateD, List.getD_cons_succ]
    | succ n =>
      cases j with
      | zero => rfl
      | succ m =>
        simp only [List.set_cons_succ, getStateD, List.getD_cons_succ]
        exact ih n m x (fun hnm => h (by rw [hnm]))

/-- SetOperandParams on an empty state stores the proposal directly. -/
theorem setOperandParams_empty (op i : Nat) (p : QuantParams) (ovr : Bool)
    (s : StateAndRescales) (h : s.state.params = none) :
    setOperandParams op i p ovr s
      = (⟨⟨some p, s.state.immutable⟩, s.rescales⟩, true) := by
  unfold setOperandParams
  rw [if_neg (by rw [h]; simp)]
  have : s.state.IsEmpty = true := by unfold QuantState.IsEmpty; rw [h]; rfl
  rw [if_neg (by rw [this]; simp)]

/-- SetOperandParams with override always leaves the state holding exactly
the proposal, without touching the immutable flag or the pending list. -/
theorem setOperandParams_override (op i : Nat) (p : QuantParams)
    (s : StateAndRescales) :
    (setOperandParams op i p true s).1.state.params = some p
    ∧ (setOperandParams op i p true s).1.state.immutable
        = s.state.immutable
    ∧ (setOperandParams op i p true s).1.rescales = s.rescales := by
  unfold setOperandParams
  by_cases hp : s.state.params = some p
  · rw [if_pos hp]
    exact ⟨hp, rfl, rfl⟩
  · rw [if_neg hp]
    simp

/-- Fixture for C5: the bias content's maximum absolute value equals the
proposed scale times kBiasMax exactly (the boundary case). -/
def biasCtxEdge : BiasCtx := ⟨true, 1, some [1073741823], true, true⟩

/-- Fixture operand states for C5: 8-bit input at 0, 8-bit filter at 1,
empty bias at 2, none with pending rescales. -/
def biasStatesEdge : List StateAndRescales :=
  [⟨⟨some qpA, false⟩, []⟩, ⟨⟨some qpFil, false⟩, []⟩, ⟨⟨none, false⟩, []⟩]

/-- Counterexample for C5: with bias content magnitude B = 1073741823 and
proposed scale s = 1 we have B / s = INT32_MAX / 2 exactly, so B / s does
not exceed the limit and the claim requires the proposed parameters to be
assigned unmodified; but line 650 tests bias_half_range / scale < kBiasMax,
so at equality the adjustment path runs and stores solved parameters with
zero point 0 instead of the proposed zero point 5. -/
theorem c5_counterexample :
    ¬ (kBiasMax < maxAbsFold (biasCtxEdge.biasDenseFPValues.getD [])
        / (1 : ℚ))
    ∧ (getStateD (setBiasParamsWithAdjustments 9 biasCtxEdge biasStatesEdge 2
        [0, 1] qpProp).opStates 2).state.params
      = some (.uniform ⟨0, 32, 0, 1, 0, -2147483648, 2147483647⟩)
    ∧ some (QuantParams.uniform ⟨0, 32, 0, 1, 0, -2147483648, 2147483647⟩)
      ≠ some qpProp := by
  refine ⟨by norm_num [maxAbsFold, absQ, biasCtxEdge, kBiasMax], ?_,
    by decide⟩
  have hchk : shouldCheckBiasScale biasCtxEdge biasStatesEdge 2 [0, 1] qpProp
      = some (0, 1) := by decide
  unfold setBiasParamsWithAdjustments
  rw [hchk]
  simp only [qpProp, biasCtxEdge, biasStatesEdge, qpA, qpFil, getStateD,
    List.getD, setOperandParamsAt, duplicateConstantOpIfNeeded, uniformD,
    setOperandParams, maxAbsFold, absQ, kBiasMax, List.foldl, List.set,
    List.getElem?_cons_zero, List.getElem?_cons_succ, Option.getD_some]
  norm_num [QuantState.IsEmpty, addUserToMatchingRescale]
  decide

/-- A per-tensor parameter set with its scale replaced and zero point
forced to 0, keeping flags, storage type, expressed type, and storage
bounds: the shape of both getChecked calls of the per-tensor adjustment
path (lines 658-661 and 672-676). -/
def adjustedUniform (u : UniformQuantizedType) (s : ℚ) : QuantParams :=
  .uniform ⟨u.flags, u.storageType, u.expressedType, s, 0,
    u.storageTypeMin, u.storageTypeMax⟩

/-- C5 as amended: whenever the adjustment check applies (constant bias and
filter, 8-bit input and filter states, 32-bit per-tensor bias proposal with
scale s) and the bias state is still empty, then writing B for the bias
content's maximum absolute value: if B / s is strictly below INT32_MAX / 2
the proposal is assigned unmodified and the filter is untouched; otherwise
(so also at exact equality, which the claim's strict inequality misses) the
solved bias scale equals B / (INT32_MAX / 2) with zero point 0, the paired
filter operand's scale is set to new_bias_scale / input_scale, and the
filter constant is duplicated exactly when it has multiple uses. -/
theorem c5_bias_overflow_guard (opId : Nat) (ctx : BiasCtx)
    (opStates : List StateAndRescales)
    (biasIndex i0 i1 inputIndex filterIndex : Nat)
    (u iu fu : UniformQuantizedType)
    (hcheck : shouldCheckBiasScale ctx opStates biasIndex [i0, i1]
        (.uniform u) = some (inputIndex, filterIndex))
    (hbias : (getStateD opStates biasIndex).state.params = none)
    (hinput : (getStateD opStates inputIndex).state.params
        = some (.uniform iu))
    (hfilter : (getStateD opStates filterIndex).state.params
        = some (.uniform fu))
    (hbi : biasIndex < opStates.length)
    (hfi : filterIndex < opStates.length)
    (hbf : filterIndex ≠ biasIndex) :
    (maxAbsFold (ctx.biasDenseFPValues.getD []) / u.scale < kBiasMax →
      (getStateD (setBiasParamsWithAdjustments opId ctx opStates biasIndex
          [i0, i1] (.uniform u)).opStates biasIndex).state.params
        = some (.uniform u)
      ∧ (setBiasParamsWithAdjustments opId ctx opStates biasIndex
          [i0, i1] (.uniform u)).filterDuplicated = false
      ∧ getStateD (setBiasParamsWithAdjustments opId ctx opStates biasIndex
          [i0, i1] (.uniform u)).opStates filterIndex
        = getStateD opStates filterIndex)
    ∧ (¬ maxAbsFold (ctx.biasDenseFPValues.getD []) / u.scale < kBiasMax →
      (getStateD (setBiasParamsWithAdjustments opId ctx opStates biasIndex
          [i0, i1] (.uniform u)).opStates biasIndex).state.params
        = some (adjustedUniform u
            (maxAbsFold (ctx.biasDenseFPValues.getD []) / kBiasMax))
      ∧ (getStateD (setBiasParamsWithAdjustments opId ctx opStates biasIndex
          [i0, i1] (.uniform u)).opStates filterIndex).state.params
        = some (adjustedUniform fu
            ((maxAbsFold (ctx.biasDenseFPValues.getD []) / kBiasMax)
              / iu.scale))
      ∧ (setBiasParamsWithAdjustments opId ctx opStates biasIndex
          [i0, i1] (.uniform u)).filterDuplicated
        = !ctx.filterHasOneUse) := by
  have hsetAt : ∀ (l : List StateAndRescales) (i : Nat) (p : QuantParams)
      (ovr : Bool),
      setOperandParamsAt opId l i p ovr
        = (l.set i (setOperandParams opId i p ovr (getStateD l i)).1,
           (setOperandParams opId i p ovr (getStateD l i)).2) :=
    fun _ _ _ _ => rfl
  have hbne : biasIndex ≠ filterIndex := fun hh => hbf hh.symm
  constructor
  · intro hlt
    have hval : setBiasParamsWithAdjustments opId ctx opStates biasIndex
        [i0, i1] (.uniform u)
        = ⟨opStates.set biasIndex
            ⟨⟨some (.uniform u),
              (getStateD opStates biasIndex).state.immutable⟩,
             (getStateD opStates biasIndex).rescales⟩, false, true⟩ := by
      unfold setBiasParamsWithAdjustments
      rw [hcheck]
      simp only [hsetAt, if_pos hlt,
        setOperandParams_empty opId biasIndex (.uniform u) false
          (getStateD opStates biasIndex) hbias, Bool.true_or]
    rw [hval]
    refine ⟨?_, rfl, ?_⟩
    · rw [getStateD_set_self opStates biasIndex _ hbi]
    · exact getStateD_set_other opStates biasIndex filterIndex _ hbne
  · intro hge
    set bv := maxAbsFold (ctx.biasDenseFPValues.getD []) with hbv
    by_cases hdup : ctx.filterHasOneUse = true
    · have hval : setBiasParamsWithAdjustments opId ctx opStates biasIndex
          [i0, i1] (.uniform u)
          = ⟨(opStates.set biasIndex
              ⟨⟨some (adjustedUniform u (bv / kBiasMax)),
                (getStateD opStates biasIndex).state.immutable⟩,
               (getStateD opStates biasIndex).rescales⟩).set filterIndex
              (setOperandParams opId filterIndex
                (adjustedUniform fu ((bv / kBiasMax) / iu.scale)) true
                (getStateD (opStates.set biasIndex
                  ⟨⟨some (adjustedUniform u (bv / kBiasMax)),
                    (getStateD opStates biasIndex).state.immutable⟩,
                   (getStateD opStates biasIndex).rescales⟩) filterIndex)).1,
             false, true⟩ := by
        unfold setBiasParamsWithAdjustments
        rw [hcheck]
        simp only [hsetAt, if_neg hge, duplicateConstantOpIfNeeded,
          if_pos hdup, hinput, hfilter, uniformD,
          setOperandParams_empty opId biasIndex _ false
            (getStateD opStates biasIndex) hbias, adjustedUniform, ← hbv,
          Bool.true_or]
      rw [hval]
      have hlen : filterIndex < (opStates.set biasIndex
          ⟨⟨some (adjustedUniform u (bv / kBiasMax)),
            (getStateD opStates biasIndex).state.immutable⟩,
           (getStateD opStates biasIndex).rescales⟩).length := by
        rw [List.length_set]; exact hfi
      refine ⟨?_, ?_, by rw [hdup]; rfl⟩
      · rw [getStateD_set_other _ filterIndex biasIndex _ hbf,
          getStateD_set_self opStates biasIndex _ hbi]
      · rw [getStateD_set_self _ filterIndex _ hlen]
        exact (setOperandParams_override opId filterIndex _ _).1
    · have hdup' : ctx.filterHasOneUse = false := by
        cases hcf : ctx.filterHasOneUse
        · rfl
        · exact absurd hcf hdup
      have hval : setBiasParamsWithAdjustments opId ctx opStates biasIndex
          [i0, i1] (.uniform u)
          = ⟨((opStates.set biasIndex
              ⟨⟨some (adjustedUniform u (bv / kBiasMax)),
                (getStateD opStates biasIndex).state.immutable⟩,
               (getStateD opStates biasIndex).rescales⟩).set filterIndex
                ⟨⟨none, false⟩, []⟩).set filterIndex
              (setOperandParams opId filterIndex
                (adjustedUniform fu ((bv / kBiasMax) / iu.scale)) true
                (getStateD ((opStates.set biasIndex
                  ⟨⟨some (adjustedUniform u (bv / kBiasMax)),
                    (getStateD opStates biasIndex).state.immutable⟩,
                   (getStateD opStates biasIndex).rescales⟩).set filterIndex
                    ⟨⟨none, false⟩, []⟩) filterIndex)).1,
             true, true⟩ := by
        unfold setBiasParamsWithAdjustments
        rw [hcheck]
        simp only [hsetAt, if_neg hge, duplicateConstantOpIfNeeded, hdup',
          Bool.false_eq_true, if_false, hinput, hfilter, uniformD,
          setOperandParams_empty opId biasIndex _ false
            (getStateD opStates biasIndex) hbias, adjustedUniform, ← hbv,
          Bool.true_or]
      rw [hval]
      have hlen1 : filterIndex < ((opStates.set biasIndex
          ⟨⟨some (adjustedUniform u (bv / kBiasMax)),
            (getStateD opStates biasIndex).state.immutable⟩,
           (getStateD opStates biasIndex).rescales⟩).set filterIndex
            ⟨⟨none, false⟩, []⟩).length := by
        rw [List.length_set, List.length_set]; exact hfi
      refine ⟨?_, ?_, by rw [hdup']; rfl⟩
      · rw [getStateD_set_other _ filterIndex biasIndex _ hbf,
          getStateD_set_other _ filterIndex biasIndex _ hbf,
          getStateD_set_self opStates biasIndex _ hbi]
      · rw [getStateD_set_self _ filterIndex _ hlen1]
        exact (setOperandParams_override opId filterIndex _ _).1

/-- Witness fixture for C5: a shared (multi-use) filter constant. -/
def biasCtxW : BiasCtx := ⟨true, 1, some [2147483646], true, false⟩

/-- Witness fixture for C5: input, filter, bias operand states. -/
def biasStatesW : List StateAndRescales :=
  [⟨⟨some qpA, false⟩, []⟩, ⟨⟨some qpFil, false⟩, []⟩, ⟨⟨none, false⟩, []⟩]

/-- The 32-bit proposal record of the C5 witness. -/
def uPropW : UniformQuantizedType := ⟨0, 32, 0, 1, 5, -2147483648, 2147483647⟩

/-- The 8-bit record the C5 witness uses for input and filter states. -/
def u8W : UniformQuantizedType := ⟨0, 8, 0, 1, 0, -128, 127⟩

/-- Witness for C5's amended theorem at concrete states. -/
theorem c5_witness :
    shouldCheckBiasScale biasCtxW biasStatesW 2 [0, 1] (.uniform uPropW)
      = some (0, 1)
    ∧ ((maxAbsFold (biasCtxW.biasDenseFPValues.getD []) / uPropW.scale
          < kBiasMax →
        (getStateD (setBiasParamsWithAdjustments 9 biasCtxW biasStatesW 2
            [0, 1] (.uniform uPropW)).opStates 2).state.params
          = some (.uniform uPropW)
        ∧ (setBiasParamsWithAdjustments 9 biasCtxW biasStatesW 2 [0, 1]
            (.uniform uPropW)).filterDuplicated = false
        ∧ getStateD (setBiasParamsWithAdjustments 9 biasCtxW biasStatesW 2
            [0, 1] (.uniform uPropW)).opStates 1 = getStateD biasStatesW 1)
      ∧ (¬ maxAbsFold (biasCtxW.biasDenseFPValues.getD []) / uPropW.scale
          < kBiasMax →
        (getStateD (setBiasParamsWithAdjustments 9 biasCtxW biasStatesW 2
            [0, 1] (.uniform uPropW)).opStates 2).state.params
          = some (adjustedUniform uPropW
              (maxAbsFold (biasCtxW.biasDenseFPValues.getD []) / kBiasMax))
        ∧ (getStateD (setBiasParamsWithAdjustments 9 biasCtxW biasStatesW 2
            [0, 1] (.uniform uPropW)).opStates 1).state.params
          = some (adjustedUniform u8W
              ((maxAbsFold (biasCtxW.biasDenseFPValues.getD []) / kBiasMax)
                / u8W.scale))
        ∧ (setBiasParamsWithAdjustments 9 biasCtxW biasStatesW 2 [0, 1]
            (.uniform uPropW)).filterDuplicated
          = !biasCtxW.filterHasOneUse)) :=
  ⟨by decide,
   c5_bias_overflow_guard 9 biasCtxW biasStatesW 2 0 1 0 1 uPropW u8W u8W
     (by decide) (by decide) (by decide) (by decide) (by decide) (by decide)
     (by decide)⟩
